import Mathlib

/-
Verification of the TeraChem stdout parsers in qcparse/parsers/terachem.py.

The parsers are shallowly embedded over `List Char`.  Each Python regex used
by the source is compiled by hand into a deterministic scanner: every
quantifier in those regexes is greedy over a character class whose follow
set is disjoint from the class, so maximal munch computes exactly the match
Python's engine finds, and `re.search` / `re.findall` become left-to-right
scans.  Python floats are modelled as exact rationals (the conversion from
a numeral token is deterministic, so every ordering/round-trip property of
the parsers is preserved by this choice).  A parser that mutates the shared
data collector and may raise becomes a function returning
`Except (ParseErr × ParsedDataCollector) ParsedDataCollector`, where the
error carries the collector state at the moment the exception is raised.
-/

set_option maxRecDepth 4000

namespace Qcparse

/-- Python `\s` on ASCII text: space, tab, newline, carriage return,
vertical tab, form feed. -/
def isPySpace (c : Char) : Bool :=
  c = ' ' || c = '\t' || c = '\n' || c = '\r' || c = '\x0b' || c = '\x0c'

/-- Numeric value of a list of decimal digit characters. -/
def digitsVal (ds : List Char) : Nat :=
  ds.foldl (fun n c => 10 * n + (c.toNat - 48)) 0

/-- Python `float()` on a token, as an exact rational: optional sign,
integer and fractional digit runs (at least one digit overall), optional
exponent.  `none` when the token is not a float literal, where `float()`
raises `ValueError`.  (The inf/nan/underscore forms accepted by `float()`
cannot arise from the character classes of the regexes modelled here.) -/
def pyFloatQ (t : List Char) : Option Rat :=
  let sp := match t with
    | '-' :: r => ((-1 : Int), r)
    | '+' :: r => ((1 : Int), r)
    | r => ((1 : Int), r)
  let ip := sp.2.takeWhile Char.isDigit
  let t2 := sp.2.dropWhile Char.isDigit
  let fs := match t2 with
    | '.' :: r => (r.takeWhile Char.isDigit, r.dropWhile Char.isDigit)
    | _ => (([] : List Char), t2)
  if ip.isEmpty && fs.1.isEmpty then none
  else
    let m : Int := sp.1 * (digitsVal (ip ++ fs.1) : Int)
    match fs.2 with
    | [] => some (mkRat m ((10 : Nat) ^ fs.1.length))
    | e :: r =>
      if e = 'e' || e = 'E' then
        let es := match r with
          | '-' :: rr => (true, rr)
          | '+' :: rr => (false, rr)
          | rr => (false, rr)
        let ed := es.2.takeWhile Char.isDigit
        let r2 := es.2.dropWhile Char.isDigit
        if ed.isEmpty || !r2.isEmpty then none
        else if es.1 then some (mkRat m ((10 : Nat) ^ (fs.1.length + digitsVal ed)))
        else some (mkRat (m * ((10 : Nat) ^ digitsVal ed : Nat)) ((10 : Nat) ^ fs.1.length))
      else none

/-- `float()` applied where the source guarantees a well-formed numeral
(the argument is a regex capture shaped like a float literal); the default
branch is never reached on such captures. -/
def pyFloat (t : List Char) : Rat :=
  (pyFloatQ t).getD 0

/-- Helper for Python `str.split()`: accumulate the current word (reversed)
while scanning. -/
def pySplitAux : List Char → List Char → List (List Char)
  | acc, [] => if acc.isEmpty then [] else [acc.reverse]
  | acc, c :: t =>
    if isPySpace c then
      if acc.isEmpty then pySplitAux [] t else acc.reverse :: pySplitAux [] t
    else pySplitAux (c :: acc) t

/-- Python `str.split()` with no argument: split on runs of whitespace,
discarding empty tokens. -/
def pySplit (s : List Char) : List (List Char) :=
  pySplitAux [] s

/-- `re.search` of a regex-literal pattern: does `pat` occur as a
contiguous substring (checking positions left to right, including the
final empty position, as Python does)? -/
def searchLit (pat : List Char) : List Char → Bool
  | [] => pat.isEmpty
  | c :: t => pat.isPrefixOf (c :: t) || searchLit pat t

/-- Match a literal as a prefix, returning the remainder. -/
def matchLit (pat s : List Char) : Option (List Char) :=
  if pat.isPrefixOf s then some (s.drop pat.length) else none

/-- Maximal run of characters satisfying `p`, at least one required
(a greedy `+` quantifier): (run, rest). -/
def munch1 (p : Char → Bool) (s : List Char) : Option (List Char × List Char) :=
  let run := s.takeWhile p
  if run.isEmpty then none else some (run, s.dropWhile p)

/-- The calculation kinds used by the TeraChem parsers, from the external
`qcio.CalcType` enumeration. -/
inductive CalcType
  | minimize | coupling | neb | energy | gradient | hessian
  | energy_eom_ccsd | energy_cis | energy_hhtda | energy_cas
  deriving DecidableEq, Repr

/-- Modelled from the spec: the shared output record
(`ParsedDataCollector` from `qcparse.models`, whose source is not in the
repository snapshot): a plain record of optional fields, absent by
default and set independently by the extractors.  Floats are exact
rationals. -/
structure ParsedDataCollector where
  energy : Option Rat := none
  energy_subtype : Option CalcType := none
  cis_info_numstates : Option Nat := none
  cis_energies : Option (List Rat) := none
  eom_ccsd_numstates : Option Nat := none
  eom_ccsd_energies : Option (List Rat) := none
  gradient : Option (List (List Rat)) := none
  hessian : Option (List (List Rat)) := none
  calcinfo_natoms : Option Nat := none
  calcinfo_nmo : Option Nat := none
  lower_state_energies : Option (List Rat) := none
  upper_state_energies : Option (List Rat) := none
  deriving DecidableEq, Repr

/-- The exceptions the extractors can raise: `MatchNotFoundError` (from
`qcparse.exceptions`; modelled from the spec as the single distinguished
pattern-not-found condition — its pattern/text payload plays no role in
the claims and is dropped), Python's `AssertionError` and `ValueError`,
and `fuelExhausted`, which flags exhaustion of the recursion bound in the
Hessian row loop model and is unreachable (see `parse_hessian`). -/
inductive ParseErr
  | matchNotFound | assertionError | valueError | fuelExhausted
  deriving DecidableEq, Repr

/-- Result of an extractor that mutates the collector and may raise; the
error carries the collector state at the moment of the raise. -/
abbrev PResult (α : Type) := Except (ParseErr × ParsedDataCollector) α

deriving instance DecidableEq for Except

/-- The ordered banner table of `parse_calctype` (a Python dict, iterated
in insertion order).  Every pattern is a regex-literal string. -/
def calctypes : List (List Char × CalcType) :=
  [("RUNNING GEOMETRY OPTMIZATION".toList, .minimize),
   ("SINGLE POINT NONADIABATIC COUPLING".toList, .coupling),
   ("SEARCHING FOR THE TRANSITION STATE".toList, .neb),
   ("SINGLE POINT ENERGY CALCULATIONS".toList, .energy),
   ("SINGLE POINT GRADIENT CALCULATIONS".toList, .gradient),
   ("FREQUENCY ANALYSIS".toList, .hessian)]

/-- The `for regex, calctype in calctypes.items()` loop: return the kind
of the first matching banner, raise `MatchNotFoundError` after the loop. -/
def calctypeLoop (string : List Char) : List (List Char × CalcType) → Except ParseErr CalcType
  | [] => .error .matchNotFound
  | pc :: rest => if searchLit pc.1 string then .ok pc.2 else calctypeLoop string rest

/-- `parse_calctype` from terachem.py. -/
def parse_calctype (string : List Char) : Except ParseErr CalcType :=
  calctypeLoop string calctypes

/-- The ordered banner table of `parse_energy_subtype`. -/
def energy_subtypes : List (List Char × CalcType) :=
  [("EOM-CCSD Energies".toList, .energy_eom_ccsd),
   ("Restricted CIS Parameters".toList, .energy_cis),
   ("Restricted hh-TDA Parameters".toList, .energy_hhtda),
   ("Active Space Parameters".toList, .energy_cas)]

/-- The `for regex, calctype in energy_subtypes.items()` loop: assign the
subtype field on every match (no early return, so a later match
overwrites an earlier one). -/
def subtypeLoop (string : List Char) :
    List (List Char × CalcType) → ParsedDataCollector → ParsedDataCollector
  | [], dc => dc
  | pc :: rest, dc =>
    if searchLit pc.1 string then
      subtypeLoop string rest { dc with energy_subtype := some pc.2 }
    else subtypeLoop string rest dc

/-- `parse_energy_subtype` from terachem.py: never raises. -/
def parse_energy_subtype (string : List Char) (dc : ParsedDataCollector) :
    PResult ParsedDataCollector :=
  .ok (subtypeLoop string energy_subtypes dc)

/-- `calculation_succeeded` from terachem.py: `re.search` for the literal
completion banner, `True` on a match and `False` otherwise. -/
def calculation_succeeded (string : List Char) : Bool :=
  searchLit ("Job finished:".toList) string

/-- The literal head of the `parse_energy` regex
`FINAL ENERGY: (-?\d+(?:\.\d+)?)`. -/
def finalEnergyLit : List Char := "FINAL ENERGY: ".toList

/-- Greedy `-?\d+(?:\.\d+)?`: optional sign, maximal digit run, optional
dot plus maximal digit run (the optional group is taken only when it
matches, as nothing follows it in the pattern): (capture, rest). -/
def matchEnergyNum (s : List Char) : Option (List Char × List Char) :=
  let sp := match s with
    | '-' :: r => ((['-'] : List Char), r)
    | r => (([] : List Char), r)
  match munch1 Char.isDigit sp.2 with
  | none => none
  | some dr =>
    match dr.2 with
    | '.' :: r2 =>
      match munch1 Char.isDigit r2 with
      | none => some (sp.1 ++ dr.1, dr.2)
      | some fr => some (sp.1 ++ dr.1 ++ '.' :: fr.1, fr.2)
    | _ => some (sp.1 ++ dr.1, dr.2)

/-- Attempt the full `parse_energy` pattern at the current position,
returning the capture. -/
def tryEnergyAt (s : List Char) : Option (List Char) :=
  (matchLit finalEnergyLit s).bind fun r => (matchEnergyNum r).map Prod.fst

/-- The capture of the `parse_energy` pattern when it matches at
position `i` of `s`. -/
def energyCapAt (s : List Char) (i : Nat) : Option (List Char) :=
  tryEnergyAt (s.drop i)

/-- `re.search` for the `parse_energy` pattern: the capture of the
leftmost match. -/
def searchEnergyCap : List Char → Option (List Char)
  | [] => tryEnergyAt []
  | c :: t =>
    match tryEnergyAt (c :: t) with
    | some cap => some cap
    | none => searchEnergyCap t

/-- `parse_energy` from terachem.py: `regex_search` (modelled from the
spec: `re.search` that raises `MatchNotFoundError` on no match, the
helper's source being outside the snapshot) for the first
`FINAL ENERGY:` float, stored via `float()`. -/
def parse_energy (string : List Char) (dc : ParsedDataCollector) :
    PResult ParsedDataCollector :=
  match searchEnergyCap string with
  | none => .error (.matchNotFound, dc)
  | some cap => .ok { dc with energy := some (pyFloat cap) }

/-- Generic `re.findall` scan for an unanchored pattern: try the matcher
at each position from left to right; on a match record its capture and
resume after the matched text.  `fuel` bounds the recursion; every
matcher passed in consumes at least one character per match, so the
initial `fuel = s.length` never runs out. -/
def findAllAux (m : List Char → Option (List Char × List Char)) :
    Nat → List Char → List (List Char)
  | 0, _ => []
  | fuel + 1, s =>
    match m s with
    | some (cap, rest) => cap :: findAllAux m fuel rest
    | none =>
      match s with
      | [] => []
      | _ :: t => findAllAux m fuel t

/-- Generic `re.findall` scan for a `^`-anchored pattern under
`re.MULTILINE`: the matcher is attempted only at the start of the text
and right after each newline.  Every matcher passed in ends its match on
a digit, so the position just after a match is never a line start. -/
def findAllML (m : List Char → Option (List Char × List Char)) :
    Nat → Bool → List Char → List (List Char)
  | 0, _, _ => []
  | fuel + 1, atStart, s =>
    match s with
    | [] => []
    | c :: t =>
      match if atStart then m (c :: t) else none with
      | some (cap, rest) => cap :: findAllML m fuel false rest
      | none => findAllML m fuel (c == '\n') t

/-- Greedy `-?\d+\.\d+` (the float capture shared by the Root, CIS and
MECI patterns): (capture, rest). -/
def matchFloatCap (s : List Char) : Option (List Char × List Char) :=
  let sp := match s with
    | '-' :: r => ((['-'] : List Char), r)
    | r => (([] : List Char), r)
  match munch1 Char.isDigit sp.2 with
  | none => none
  | some dr =>
    match dr.2 with
    | '.' :: r2 =>
      match munch1 Char.isDigit r2 with
      | none => none
      | some fr => some (sp.1 ++ dr.1 ++ '.' :: fr.1, fr.2)
    | _ => none

/-- Anchored matcher for `^\s*Root\s+\d+:\s+(-?\d+\.\d+)`
(`parse_eom_ccsd_energies`): every quantifier is greedy with a follow set
disjoint from its class, so maximal munch is exact. -/
def matchRoot (s : List Char) : Option (List Char × List Char) :=
  match matchLit ("Root".toList) (s.dropWhile isPySpace) with
  | none => none
  | some r1 =>
    match munch1 isPySpace r1 with
    | none => none
    | some w1 =>
      match munch1 Char.isDigit w1.2 with
      | none => none
      | some d1 =>
        match d1.2 with
        | ':' :: r4 =>
          match munch1 isPySpace r4 with
          | none => none
          | some w2 => matchFloatCap w2.2
        | _ => none

/-- All captures of the Root pattern, in document order. -/
def rootMatches (string : List Char) : List (List Char) :=
  findAllML matchRoot string.length true string

/-- `parse_eom_ccsd_energies` from terachem.py: `assert` on the
previously stored state count (raising `AssertionError` when the field is
unset or zero), keep the final `numstates + 1` matches via the Python
slice `matches[-(numstates + 1):]`, raise `MatchNotFoundError` when the
kept list is empty. -/
def parse_eom_ccsd_energies (string : List Char) (dc : ParsedDataCollector) :
    PResult ParsedDataCollector :=
  let ms := rootMatches string
  match dc.eom_ccsd_numstates with
  | none => .error (.assertionError, dc)
  | some ns =>
    if ns = 0 then .error (.assertionError, dc)
    else
      let kept := ms.drop (ms.length - (ns + 1))
      if kept.isEmpty then .error (.matchNotFound, dc)
      else .ok { dc with eom_ccsd_energies := some (kept.map pyFloat) }

/-- `\d+\.\d+` with no capture: rest after the match. -/
def matchUFloat (s : List Char) : Option (List Char) :=
  match munch1 Char.isDigit s with
  | none => none
  | some dr =>
    match dr.2 with
    | '.' :: r2 => (munch1 Char.isDigit r2).map Prod.snd
    | _ => none

/-- `-?\d+\.\d+` with no capture: rest after the match. -/
def matchSFloat (s : List Char) : Option (List Char) :=
  match s with
  | '-' :: r => matchUFloat r
  | r => matchUFloat r

/-- Anchored matcher for the `parse_cis_energies` pattern
`^\s*\d+\s+(-?\d+\.\d+)\s+\d+\.\d+\s+\d+\.\d+\s+\d+\.\d+\s+-?\d+\.\d+\s+\d+\s*->\s*\d`:
(capture, rest after the final digit). -/
def matchCis (s : List Char) : Option (List Char × List Char) :=
  match munch1 Char.isDigit (s.dropWhile isPySpace) with
  | none => none
  | some i1 =>
  match munch1 isPySpace i1.2 with
  | none => none
  | some w1 =>
  match matchFloatCap w1.2 with
  | none => none
  | some cap =>
  match munch1 isPySpace cap.2 with
  | none => none
  | some w2 =>
  match matchUFloat w2.2 with
  | none => none
  | some r5 =>
  match munch1 isPySpace r5 with
  | none => none
  | some w3 =>
  match matchUFloat w3.2 with
  | none => none
  | some r6 =>
  match munch1 isPySpace r6 with
  | none => none
  | some w4 =>
  match matchUFloat w4.2 with
  | none => none
  | some r7 =>
  match munch1 isPySpace r7 with
  | none => none
  | some w5 =>
  match matchSFloat w5.2 with
  | none => none
  | some r8 =>
  match munch1 isPySpace r8 with
  | none => none
  | some w6 =>
  match munch1 Char.isDigit w6.2 with
  | none => none
  | some i2 =>
  match matchLit ("->".toList) (i2.2.dropWhile isPySpace) with
  | none => none
  | some r9 =>
  match r9.dropWhile isPySpace with
  | d :: rest => if d.isDigit then some (cap.1, rest) else none
  | [] => none

/-- All captures of the CIS table pattern, in document order. -/
def cisMatches (string : List Char) : List (List Char) :=
  findAllML matchCis string.length true string

/-- `parse_cis_energies` from terachem.py: store all matches when any
exist, else raise `MatchNotFoundError`. -/
def parse_cis_energies (string : List Char) (dc : ParsedDataCollector) :
    PResult ParsedDataCollector :=
  let ms := cisMatches string
  if ms.isEmpty then .error (.matchNotFound, dc)
  else .ok { dc with cis_energies := some (ms.map pyFloat) }

/-- Unanchored matcher for `Lower state energy:\s*(-?\d+\.\d+)`
(`parse_meci_energies`): (capture, rest). -/
def matchLower (s : List Char) : Option (List Char × List Char) :=
  match matchLit ("Lower state energy:".toList) s with
  | none => none
  | some r1 => matchFloatCap (r1.dropWhile isPySpace)

/-- Unanchored matcher for `Upper state energy:\s*(-?\d+\.\d+)`. -/
def matchUpper (s : List Char) : Option (List Char × List Char) :=
  match matchLit ("Upper state energy:".toList) s with
  | none => none
  | some r1 => matchFloatCap (r1.dropWhile isPySpace)

/-- All captures of the lower-state pattern, in document order. -/
def lowerMatches (string : List Char) : List (List Char) :=
  findAllAux matchLower string.length string

/-- All captures of the upper-state pattern, in document order. -/
def upperMatches (string : List Char) : List (List Char) :=
  findAllAux matchUpper string.length string

/-- `parse_meci_energies` from terachem.py: collect all lower- and
upper-state matches, raise `MatchNotFoundError` when either list is
empty, otherwise store both lists and return them alongside the
collector. -/
def parse_meci_energies (string : List Char) (dc : ParsedDataCollector) :
    PResult (ParsedDataCollector × List Rat × List Rat) :=
  let lower := lowerMatches string
  let upper := upperMatches string
  if lower.isEmpty || upper.isEmpty then .error (.matchNotFound, dc)
  else
    let ls := lower.map pyFloat
    let us := upper.map pyFloat
    .ok ({ dc with
            lower_state_energies := some ls,
            upper_state_energies := some us },
         ls, us)

/-- The character class `[\d\.\-\s]` of the gradient-block pattern. -/
def gradChar (c : Char) : Bool :=
  c.isDigit || c = '.' || c = '-' || isPySpace c

/-- Match the fixed-width lookbehind `dE\/dX\s{12}dE\/dY\s{12}dE\/dZ\n`
of the `parse_gradient` pattern as a prefix, returning the rest. -/
def matchGradHeader (s : List Char) : Option (List Char) :=
  match matchLit ("dE/dX".toList) s with
  | none => none
  | some r1 =>
    if (r1.take 12).length = 12 && (r1.take 12).all isPySpace then
      match matchLit ("dE/dY".toList) (r1.drop 12) with
      | none => none
      | some r2 =>
        if (r2.take 12).length = 12 && (r2.take 12).all isPySpace then
          match matchLit ("dE/dZ".toList) (r2.drop 12) with
          | none => none
          | some r3 =>
            match r3 with
            | '\n' :: r4 => some r4
            | _ => none
        else none
    else none

/-- The lookahead `(?=\n-{2,})` of the gradient pattern: a newline
followed by at least two dashes. -/
def dashAhead : List Char → Bool
  | '\n' :: '-' :: '-' :: _ => true
  | _ => false

/-- The body `[\d\.\-\s]+(?=\n-{2,})` evaluated just after the header:
the greedy class run backtracks from its maximal extent until the
lookahead holds, so the match ends at the last position inside the
maximal run that is followed by a newline and two dashes (note that both
newline and dash belong to the class). -/
def gradBodyAt (rest : List Char) : Option (List Char) :=
  let runLen := (rest.takeWhile gradChar).length
  ((List.range (runLen + 1)).reverse.find? fun q =>
      decide (1 ≤ q) && dashAhead (rest.drop q)).map fun q => rest.take q

/-- `re.search` for the gradient pattern: the match must start right
after an occurrence of the fixed-width header (the lookbehind), and the
leftmost such start position wins; a header occurrence whose body fails
is skipped, as Python resumes scanning. -/
def gradSearch : List Char → Option (List Char)
  | [] => none
  | c :: t =>
    match matchGradHeader (c :: t) with
    | some rest =>
      match gradBodyAt rest with
      | some body => some body
      | none => gradSearch t
    | none => gradSearch t

/-- The `values[i : i + 3]` grouping loop of `parse_gradient`:
consecutive triples, with a shorter final row when the length is not a
multiple of three. -/
def chunk3 : List Rat → List (List Rat)
  | [] => []
  | [a] => [[a]]
  | [a, b] => [[a, b]]
  | a :: b :: c :: t => [a, b, c] :: chunk3 t

/-- The list comprehension `[float(val) for val in gradient_string.split()]`
applied to already-split tokens: all floats, or `none` as soon as one
token makes `float()` raise. -/
def mapFloats : List (List Char) → Option (List Rat)
  | [] => some []
  | t :: ts =>
    match pyFloatQ t, mapFloats ts with
    | some v, some vs => some (v :: vs)
    | _, _ => none

/-- The flat float sequence of the gradient block: the matched body split
on whitespace, each token through `float()`; `none` when the block is
absent or some token is not a float literal. -/
def gradientFlatValues (string : List Char) : Option (List Rat) :=
  (gradSearch string).bind fun body => mapFloats (pySplit body)

/-- `parse_gradient` from terachem.py: extract the delimited numeric
block (raising `MatchNotFoundError` when absent, via the spec-modelled
`regex_search`), split it into floats (`float()` raising `ValueError` on
a malformed token), and store the rows of three. -/
def parse_gradient (string : List Char) (dc : ParsedDataCollector) :
    PResult ParsedDataCollector :=
  match gradSearch string with
  | none => .error (.matchNotFound, dc)
  | some body =>
    match mapFloats (pySplit body) with
    | none => .error (.valueError, dc)
    | some values => .ok { dc with gradient := some (chunk3 values) }

/-- The decimal digit string of a row index, as produced by
`regex.format(count)`. -/
def natLit (n : Nat) : List Char :=
  (Nat.repr n).toList

/-- One Hessian value `\s-?\d\.\d{15}e[+-]\d{2}`: exactly one whitespace
character, optional sign, one digit, a dot, fifteen digits, `e`, a sign
and two exponent digits.  Returns (consumed text, rest); the consumed
text is part of the capture group, leading whitespace included. -/
def matchHessVal (s : List Char) : Option (List Char × List Char) :=
  match s with
  | [] => none
  | c0 :: r0 =>
    if isPySpace c0 then
      let sp := match r0 with
        | '-' :: rr => ((['-'] : List Char), rr)
        | rr => (([] : List Char), rr)
      match sp.2 with
      | d :: '.' :: r1 =>
        if d.isDigit && (r1.take 15).length = 15 && (r1.take 15).all Char.isDigit then
          match r1.drop 15 with
          | 'e' :: e1 :: d1 :: d2 :: r3 =>
            if (e1 = '+' || e1 = '-') && d1.isDigit && d2.isDigit then
              some (c0 :: sp.1 ++ d :: '.' :: r1.take 15 ++ 'e' :: e1 :: d1 :: d2 :: [], r3)
            else none
          | _ => none
        else none
      | _ => none
    else none

/-- Greedy tail of `(?:\s-?\d\.\d{15}e[+-]\d{2})+`: keep consuming value
units while they match.  Each unit consumes at least one character, so
`fuel = s.length` never runs out. -/
def hessValsAux : Nat → List Char → List Char × List Char
  | 0, s => ([], s)
  | fuel + 1, s =>
    match matchHessVal s with
    | none => ([], s)
    | some (txt, rest) =>
      let more := hessValsAux fuel rest
      (txt ++ more.1, more.2)

/-- The capture group `((?:\s-?\d\.\d{15}e[+-]\d{2})+)`: at least one
value unit, then greedily as many as match: (capture, rest). -/
def matchHessVals (s : List Char) : Option (List Char × List Char) :=
  match matchHessVal s with
  | none => none
  | some (txt, rest) =>
    let more := hessValsAux rest.length rest
    some (txt ++ more.1, more.2)

/-- Matcher for the formatted Hessian row pattern
`(?:\s+<count>\s)((?:\s-?\d\.\d{15}e[+-]\d{2})+)`: maximal whitespace
run, the literal decimal row index (maximal munch is exact: shortening
the `\s+` run would place a whitespace character where the index digit is
required), one whitespace, then the value units: (capture, rest). -/
def hessMatcher (c : Nat) (s : List Char) : Option (List Char × List Char) :=
  match munch1 isPySpace s with
  | none => none
  | some sp =>
    match matchLit (natLit c) sp.2 with
    | none => none
    | some r2 =>
      match r2 with
      | w :: r3 => if isPySpace w then matchHessVals r3 else none
      | [] => none

/-- All capture groups for row index `c`, in document order
(`re.findall(regex.format(count), string)`). -/
def hessRows (c : Nat) (string : List Char) : List (List Char) :=
  findAllAux (hessMatcher c) string.length string

/-- The `while matches := re.findall(...)` loop of `parse_hessian`:
starting at row index 1, append the concatenated floats of all matches
for the current index and advance, stopping at the first index with no
match.  `fuel` bounds the recursion: a match for index `c` needs `c`'s
decimal digits as a whitespace-delimited token of the text, distinct
indices need distinct (hence disjoint) such tokens, so fewer than
`string.length` indices can match and `fuel = string.length + 1`
iterations always reach the stopping index (`none` = fuel exhausted,
never returned from the initial fuel). -/
def hessLoop (string : List Char) : Nat → Nat → List (List Rat) → Option (List (List Rat))
  | 0, _, _ => none
  | fuel + 1, count, acc =>
    let ms := hessRows count string
    if ms.isEmpty then some acc.reverse
    else
      hessLoop string fuel (count + 1)
        (((ms.map fun cap => (pySplit cap).map pyFloat).flatten) :: acc)

/-- `parse_hessian` from terachem.py: assemble rows until an index has no
match, raise `MatchNotFoundError` when no row was found at all, `assert`
that every row's length equals the number of rows (Python
`AssertionError` otherwise), and only then store the matrix. -/
def parse_hessian (string : List Char) (dc : ParsedDataCollector) :
    PResult ParsedDataCollector :=
  match hessLoop string (string.length + 1) 1 [] with
  | none => .error (.fuelExhausted, dc)
  | some hessian =>
    if hessian.isEmpty then .error (.matchNotFound, dc)
    else if hessian.all fun row => row.length == hessian.length then
      .ok { dc with hessian := some hessian }
    else .error (.assertionError, dc)

/-! Helper lemmas. -/

theorem searchLit_iff (pat s : List Char) :
    searchLit pat s = true ↔ ∃ i, i ≤ s.length ∧ pat.isPrefixOf (s.drop i) = true := by
  induction s with
  | nil =>
    cases pat <;> simp [searchLit, List.isPrefixOf]
  | cons c t ih =>
    simp only [searchLit, Bool.or_eq_true, ih]
    constructor
    · rintro (h | ⟨i, hi, hp⟩)
      · exact ⟨0, by omega, h⟩
      · exact ⟨i + 1, by simp; omega, by simpa using hp⟩
    · rintro ⟨i, hi, hp⟩
      cases i with
      | zero => exact Or.inl (by simpa using hp)
      | succ j =>
        exact Or.inr ⟨j, by simp at hi; omega, by simpa using hp⟩

theorem calctypeLoop_find (string : List Char) (l : List (List Char × CalcType)) :
    calctypeLoop string l =
      match l.find? (fun pc => searchLit pc.1 string) with
      | some pc => .ok pc.2
      | none => .error .matchNotFound := by
  induction l with
  | nil => simp [calctypeLoop]
  | cons q rest ih =>
    by_cases hq : searchLit q.1 string
    · simp [calctypeLoop, hq, List.find?_cons_of_pos]
    · simp [calctypeLoop, hq, List.find?_cons_of_neg, ih]

theorem subtypeLoop_id (string : List Char) (l : List (List Char × CalcType)) :
    ∀ dc : ParsedDataCollector,
      (∀ pc ∈ l, searchLit pc.1 string = false) → subtypeLoop string l dc = dc := by
  induction l with
  | nil => intro dc _; rfl
  | cons q rest ih =>
    intro dc h
    have hq : searchLit q.1 string = false := h q (by simp)
    simp [subtypeLoop, hq]
    exact ih dc fun pc hpc => h pc (by simp [hpc])

theorem subtypeLoop_last (string : List Char) (l : List (List Char × CalcType)) :
    ∀ (dc : ParsedDataCollector) (pc : List Char × CalcType),
      (l.filter fun qc => searchLit qc.1 string).getLast? = some pc →
      subtypeLoop string l dc = { dc with energy_subtype := some pc.2 } := by
  induction l with
  | nil => intro dc pc h; simp at h
  | cons q rest ih =>
    intro dc pc h
    by_cases hq : searchLit q.1 string
    · rw [List.filter_cons_of_pos (by simpa using hq)] at h
      cases hfr : rest.filter fun qc => searchLit qc.1 string with
      | nil =>
        rw [hfr] at h
        simp at h
        subst h
        simp [subtypeLoop, hq]
        exact subtypeLoop_id string rest _ (by
          intro qc hqc
          by_contra hcon
          have : qc ∈ rest.filter fun qc => searchLit qc.1 string :=
            List.mem_filter.2 ⟨hqc, by simpa using hcon⟩
          simp [hfr] at this)
      | cons x xs =>
        rw [hfr, List.getLast?_cons_cons] at h
        simp [subtypeLoop, hq]
        exact ih { dc with energy_subtype := some q.2 } pc (by rw [hfr]; exact h)
    · rw [List.filter_cons_of_neg (by simpa using hq)] at h
      simp [subtypeLoop, hq]
      exact ih dc pc h

/-! Claim theorems. -/

/-- C6: `parse_calctype` returns the kind paired with the first banner,
in table order, that occurs in the text, and raises the match-not-found
error when no banner occurs; in particular a text containing the gradient
banner (and none of the four banners before it) yields the gradient
kind, and a text containing the frequency-analysis banner (and none of
the five banners before it) yields the hessian kind. -/
theorem calctype_first_banner (string : List Char) :
    (∀ k, parse_calctype string = .ok k ↔
        ∃ p, calctypes.find? (fun pc => searchLit pc.1 string) = some (p, k)) ∧
    ((∀ pc ∈ calctypes, searchLit pc.1 string = false) →
      parse_calctype string = .error .matchNotFound) ∧
    (searchLit ("SINGLE POINT GRADIENT CALCULATIONS".toList) string = true →
      (∀ pc ∈ calctypes.take 4, searchLit pc.1 string = false) →
      parse_calctype string = .ok .gradient) ∧
    (searchLit ("FREQUENCY ANALYSIS".toList) string = true →
      (∀ pc ∈ calctypes.take 5, searchLit pc.1 string = false) →
      parse_calctype string = .ok .hessian) := by
  refine ⟨?_, ?_, ?_, ?_⟩
  · intro k
    rw [parse_calctype, calctypeLoop_find]
    cases hf : calctypes.find? fun pc => searchLit pc.1 string with
    | none => simp
    | some pc =>
      simp only [Except.ok.injEq]
      constructor
      · rintro rfl; exact ⟨pc.1, by simp⟩
      · rintro ⟨p, hp⟩
        injection hp with hpk
        rw [hpk]
  · intro h
    rw [parse_calctype, calctypeLoop_find]
    rw [List.find?_eq_none.2 fun pc hpc => by simp [h pc hpc]]
  · intro hg h
    have h1 : searchLit ("RUNNING GEOMETRY OPTMIZATION".toList) string = false :=
      h ("RUNNING GEOMETRY OPTMIZATION".toList, CalcType.minimize) (by decide)
    have h2 : searchLit ("SINGLE POINT NONADIABATIC COUPLING".toList) string = false :=
      h ("SINGLE POINT NONADIABATIC COUPLING".toList, CalcType.coupling) (by decide)
    have h3 : searchLit ("SEARCHING FOR THE TRANSITION STATE".toList) string = false :=
      h ("SEARCHING FOR THE TRANSITION STATE".toList, CalcType.neb) (by decide)
    have h4 : searchLit ("SINGLE POINT ENERGY CALCULATIONS".toList) string = false :=
      h ("SINGLE POINT ENERGY CALCULATIONS".toList, CalcType.energy) (by decide)
    simp only [parse_calctype, calctypes, calctypeLoop]
    rw [h1, h2, h3, h4, hg]
    simp
  · intro hg h
    have h1 : searchLit ("RUNNING GEOMETRY OPTMIZATION".toList) string = false :=
      h ("RUNNING GEOMETRY OPTMIZATION".toList, CalcType.minimize) (by decide)
    have h2 : searchLit ("SINGLE POINT NONADIABATIC COUPLING".toList) string = false :=
      h ("SINGLE POINT NONADIABATIC COUPLING".toList, CalcType.coupling) (by decide)
    have h3 : searchLit ("SEARCHING FOR THE TRANSITION STATE".toList) string = false :=
      h ("SEARCHING FOR THE TRANSITION STATE".toList, CalcType.neb) (by decide)
    have h4 : searchLit ("SINGLE POINT ENERGY CALCULATIONS".toList) string = false :=
      h ("SINGLE POINT ENERGY CALCULATIONS".toList, CalcType.energy) (by decide)
    have h5 : searchLit ("SINGLE POINT GRADIENT CALCULATIONS".toList) string = false :=
      h ("SINGLE POINT GRADIENT CALCULATIONS".toList, CalcType.gradient) (by decide)
    simp only [parse_calctype, calctypes, calctypeLoop]
    rw [h1, h2, h3, h4, h5, hg]
    simp

/-- C6 witness: concrete classifications covering the no-banner, gradient
and frequency cases. -/
theorem calctype_first_banner_witness :
    parse_calctype ("No driver here".toList) = .error .matchNotFound ∧
    parse_calctype ("SINGLE POINT GRADIENT CALCULATIONS".toList) = .ok .gradient ∧
    parse_calctype ("water FREQUENCY ANALYSIS output".toList) = .ok .hessian :=
  ⟨(calctype_first_banner ("No driver here".toList)).2.1 (by decide),
   (calctype_first_banner ("SINGLE POINT GRADIENT CALCULATIONS".toList)).2.2.1
     (by decide) (by decide),
   (calctype_first_banner ("water FREQUENCY ANALYSIS output".toList)).2.2.2
     (by decide) (by decide)⟩

/-- C7: `parse_energy_subtype` never raises: it always returns normally,
and when none of the subtype banners occurs in the text the collector —
in particular its `energy_subtype` field — is returned unchanged. -/
theorem subtype_no_error (string : List Char) (dc : ParsedDataCollector) :
    (∃ dc', parse_energy_subtype string dc = .ok dc') ∧
    ((∀ pc ∈ energy_subtypes, searchLit pc.1 string = false) →
      parse_energy_subtype string dc = .ok dc) := by
  refine ⟨⟨subtypeLoop string energy_subtypes dc, rfl⟩, fun h => ?_⟩
  rw [parse_energy_subtype, subtypeLoop_id string energy_subtypes dc h]

/-- C7 witness: a text with no subtype banner leaves a fresh collector
untouched. -/
theorem subtype_no_error_witness :
    parse_energy_subtype ("plain SCF output".toList) {} = .ok {} :=
  (subtype_no_error ("plain SCF output".toList) {}).2 (by decide)

/-- C10: when at least one subtype banner matches, the stored subtype is
the kind of the last matching entry in the fixed table order (EOM-CCSD,
then CIS, then hhTDA, then active-space): the loop overwrites the field
on every match instead of returning at the first. -/
theorem subtype_last_match (string : List Char) (dc : ParsedDataCollector)
    (pc : List Char × CalcType)
    (h : (energy_subtypes.filter fun qc => searchLit qc.1 string).getLast? = some pc) :
    parse_energy_subtype string dc = .ok { dc with energy_subtype := some pc.2 } := by
  rw [parse_energy_subtype, subtypeLoop_last string energy_subtypes dc pc h]

/-- C10 witness: a text containing both the EOM-CCSD and the CIS banners
ends up classified as CIS, the later table entry. -/
theorem subtype_last_match_witness :
    parse_energy_subtype
        ("EOM-CCSD Energies and Restricted CIS Parameters".toList) {} =
      .ok { energy_subtype := some .energy_cis } :=
  subtype_last_match ("EOM-CCSD Energies and Restricted CIS Parameters".toList) {}
    ("Restricted CIS Parameters".toList, .energy_cis) (by decide)

/-- C8: `calculation_succeeded` is a total boolean with no error path:
it returns true exactly when the completion banner `Job finished:`
occurs in the text, and false on any other text — including one carrying
an explicit termination banner, as in the second conjunct. -/
theorem succeeded_iff_banner :
    (∀ string : List Char,
      calculation_succeeded string = true ↔
        ∃ i, i ≤ string.length ∧
          ("Job finished:".toList).isPrefixOf (string.drop i) = true) ∧
    calculation_succeeded
        ("DIE called at line number 3572 in file terachem/params.cpp\n Job terminated: Thu Mar 23 03:47:12 2023\n".toList)
      = false := by
  exact ⟨fun string => searchLit_iff ("Job finished:".toList) string, by decide⟩

theorem searchEnergyCap_eq_none (s : List Char)
    (h : ∀ i, i ≤ s.length → energyCapAt s i = none) : searchEnergyCap s = none := by
  induction s with
  | nil => simpa [searchEnergyCap, energyCapAt] using h 0 (by simp)
  | cons c t ih =>
    have h0 : tryEnergyAt (c :: t) = none := by
      simpa [energyCapAt] using h 0 (by simp)
    simp only [searchEnergyCap, h0]
    exact ih fun i hi => by
      simpa [energyCapAt] using h (i + 1) (by simp; omega)

theorem searchEnergyCap_first (s : List Char) :
    ∀ (i : Nat) (cap : List Char), energyCapAt s i = some cap →
      (∀ j, j < i → energyCapAt s j = none) → searchEnergyCap s = some cap := by
  induction s with
  | nil =>
    intro i cap hcap _
    rw [energyCapAt, List.drop_nil] at hcap
    have h0 : tryEnergyAt [] = none := by decide
    rw [h0] at hcap
    simp at hcap
  | cons c t ih =>
    intro i cap hcap hmin
    cases i with
    | zero =>
      rw [energyCapAt, List.drop_zero] at hcap
      simp [searchEnergyCap, hcap]
    | succ k =>
      have h0 : tryEnergyAt (c :: t) = none := by
        simpa [energyCapAt] using hmin 0 (Nat.succ_pos k)
      simp only [searchEnergyCap, h0]
      exact ih k cap (by simpa [energyCapAt] using hcap)
        fun j hj => by simpa [energyCapAt] using hmin (j + 1) (by omega)

/-- C5: `parse_energy` stores, as its float value, the capture of the
first position at which `FINAL ENERGY: <float>` matches (negative,
positive and integer-valued forms included, the number regex making the
fractional part optional), and raises the match-not-found error when the
pattern matches at no position of the text. -/
theorem energy_first_match (string : List Char) (dc : ParsedDataCollector) :
    (∀ i cap, energyCapAt string i = some cap →
      (∀ j, j < i → energyCapAt string j = none) →
      parse_energy string dc = .ok { dc with energy := some (pyFloat cap) }) ∧
    ((∀ i, i ≤ string.length → energyCapAt string i = none) →
      parse_energy string dc = .error (.matchNotFound, dc)) := by
  constructor
  · intro i cap hcap hmin
    rw [parse_energy, searchEnergyCap_first string i cap hcap hmin]
  · intro h
    rw [parse_energy, searchEnergyCap_eq_none string h]

/-- C5 witness: the spec's negative and integer examples, stored from the
first occurrence, and the raising case. -/
theorem energy_first_match_witness :
    parse_energy ("FINAL ENERGY: -76.3861099088 a.u".toList) {} =
      .ok { energy := some (mkRat (-763861099088) 10000000000) } ∧
    parse_energy ("FINAL ENERGY: 7123 a.u\nFINAL ENERGY: -1.5 a.u".toList) {} =
      .ok { energy := some 7123 } ∧
    parse_energy ("No energy here".toList) {} = .error (.matchNotFound, {}) := by
  refine ⟨?_, ?_, ?_⟩
  · rw [(energy_first_match ("FINAL ENERGY: -76.3861099088 a.u".toList) {}).1 0
      ("-76.3861099088".toList) (by decide) (fun j hj => absurd hj (Nat.not_lt_zero j))]
    decide
  · rw [(energy_first_match ("FINAL ENERGY: 7123 a.u\nFINAL ENERGY: -1.5 a.u".toList) {}).1 0
      ("7123".toList) (by decide) (fun j hj => absurd hj (Nat.not_lt_zero j))]
    decide
  · exact (energy_first_match ("No energy here".toList) {}).2 (by decide)

/-- C3: with a positive `eom_ccsd_numstates` already stored, the
`eom_ccsd_energies` written by `parse_eom_ccsd_energies` are exactly the
float values of the final `count + 1` Root-pattern matches (a suffix of
the document-ordered match list; the whole list when it is shorter than
`count + 1`), all earlier matches being discarded, and the match-not-found
error is raised when the pattern matches nowhere. -/
theorem eom_last_matches (string : List Char) (dc : ParsedDataCollector) (n : Nat)
    (hn : dc.eom_ccsd_numstates = some n) (hpos : 0 < n) :
    (rootMatches string = [] →
      parse_eom_ccsd_energies string dc = .error (.matchNotFound, dc)) ∧
    (rootMatches string ≠ [] →
      ∃ pre kept, rootMatches string = pre ++ kept ∧
        kept.length = min (n + 1) (rootMatches string).length ∧
        parse_eom_ccsd_energies string dc =
          .ok { dc with eom_ccsd_energies := some (kept.map pyFloat) }) := by
  have hn0 : ¬ n = 0 := by omega
  constructor
  · intro hnil
    simp [parse_eom_ccsd_energies, hn, hnil, hn0]
  · intro hne
    have hlen : 0 < (rootMatches string).length := List.length_pos.2 hne
    refine ⟨(rootMatches string).take ((rootMatches string).length - (n + 1)),
            (rootMatches string).drop ((rootMatches string).length - (n + 1)),
            (List.take_append_drop _ _).symm, ?_, ?_⟩
    · rw [List.length_drop]; omega
    · have hlen2 : ((rootMatches string).drop
          ((rootMatches string).length - (n + 1))).length ≠ 0 := by
        rw [List.length_drop]; omega
      have hkept : ((rootMatches string).drop
          ((rootMatches string).length - (n + 1))).isEmpty = false := by
        cases hd : (rootMatches string).drop ((rootMatches string).length - (n + 1)) with
        | nil => rw [hd] at hlen2; simp at hlen2
        | cons x xs => rfl
      simp [parse_eom_ccsd_energies, hn, hn0, hkept]

/-- C3 witness: with one excited state recorded, only the final two of
three Root matches are stored; a rootless text raises. -/
theorem eom_last_matches_witness :
    parse_eom_ccsd_energies ("no roots".toList) { eom_ccsd_numstates := some 1 } =
      .error (.matchNotFound, { eom_ccsd_numstates := some 1 }) ∧
    (∃ pre kept,
      rootMatches ("Root 1: -1.5\nRoot 2: -2.5\nRoot 3: -0.5\n".toList) = pre ++ kept ∧
      kept.length = min 2 (rootMatches ("Root 1: -1.5\nRoot 2: -2.5\nRoot 3: -0.5\n".toList)).length ∧
      parse_eom_ccsd_energies ("Root 1: -1.5\nRoot 2: -2.5\nRoot 3: -0.5\n".toList)
          { eom_ccsd_numstates := some 1 } =
        .ok { eom_ccsd_numstates := some 1, eom_ccsd_energies := some (kept.map pyFloat) }) :=
  ⟨(eom_last_matches ("no roots".toList) { eom_ccsd_numstates := some 1 } 1 rfl
      (by decide)).1 (by decide),
   (eom_last_matches ("Root 1: -1.5\nRoot 2: -2.5\nRoot 3: -0.5\n".toList)
      { eom_ccsd_numstates := some 1 } 1 rfl (by decide)).2 (by decide)⟩

/-- C4 counterexample: on a text with two lower-state lines and one
upper-state line, `parse_meci_energies` returns normally with sequences
of unequal lengths, so it does not return two equal-length sequences for
every input. -/
theorem meci_unequal_counterexample :
    parse_meci_energies
        ("Lower state energy: -1.0\nLower state energy: -2.0\nUpper state energy: -3.0\n".toList)
        {} =
      .ok ({ lower_state_energies := some [-1, -2], upper_state_energies := some [-3] },
           [-1, -2], [-3]) ∧
    ([(-1 : Rat), -2].length ≠ [(-3 : Rat)].length) := by
  constructor
  · decide
  · decide

/-- C4 amended: `parse_meci_energies` returns the float values of all
`Lower state energy` matches and all `Upper state energy` matches, each
in document order (the two sequences need not have equal length), stores
them in the collector, and raises the match-not-found error whenever
either match list is empty. -/
theorem meci_all_matches (string : List Char) (dc : ParsedDataCollector) :
    (lowerMatches string = [] ∨ upperMatches string = [] →
      parse_meci_energies string dc = .error (.matchNotFound, dc)) ∧
    (lowerMatches string ≠ [] → upperMatches string ≠ [] →
      parse_meci_energies string dc =
        .ok ({ dc with
                lower_state_energies := some ((lowerMatches string).map pyFloat),
                upper_state_energies := some ((upperMatches string).map pyFloat) },
             (lowerMatches string).map pyFloat, (upperMatches string).map pyFloat)) := by
  constructor
  · rintro (h | h) <;> simp [parse_meci_energies, h]
  · intro hl hu
    simp [parse_meci_energies, List.isEmpty_eq_false, hl, hu]

/-- C4 witness for the amended claim: the success case with all matches
kept, and the raising case on a text missing the upper-state lines. -/
theorem meci_all_matches_witness :
    parse_meci_energies
        ("Lower state energy: -1.0\nUpper state energy: -3.0\nLower state energy: -2.0\nUpper state energy: -4.0\n".toList)
        {} =
      .ok ({ lower_state_energies := some [-1, -2], upper_state_energies := some [-3, -4] },
           [-1, -2], [-3, -4]) ∧
    parse_meci_energies ("Lower state energy: -1.0\n".toList) {} =
      .error (.matchNotFound, {}) := by
  constructor
  · rw [(meci_all_matches
      ("Lower state energy: -1.0\nUpper state energy: -3.0\nLower state energy: -2.0\nUpper state energy: -4.0\n".toList)
      {}).2 (by decide) (by decide)]
    decide
  · exact (meci_all_matches ("Lower state energy: -1.0\n".toList) {}).1 (by decide)

theorem chunk3_flatten : ∀ l : List Rat, (chunk3 l).flatten = l
  | [] => rfl
  | [a] => rfl
  | [a, b] => rfl
  | a :: b :: c :: t => by
    simp only [chunk3, List.flatten_cons, List.cons_append, List.nil_append]
    rw [chunk3_flatten t]

theorem chunk3_shape (n : Nat) : ∀ l : List Rat, l.length = 3 * n →
    (chunk3 l).length = n ∧ ∀ row ∈ chunk3 l, row.length = 3 := by
  induction n with
  | zero =>
    intro l h
    have hl : l = [] := List.eq_nil_of_length_eq_zero (by omega)
    subst hl
    simp [chunk3]
  | succ k ih =>
    intro l h
    match l with
    | [] => simp at h
    | [a] => simp at h; omega
    | [a, b] => simp at h; omega
    | a :: b :: c :: t =>
      have ht : t.length = 3 * k := by simp at h; omega
      obtain ⟨h1, h2⟩ := ih t ht
      refine ⟨by simp [chunk3, h1], ?_⟩
      intro row hrow
      rw [chunk3] at hrow
      rcases List.mem_cons.1 hrow with hr | hr
      · rw [hr]; rfl
      · exact h2 row hr

/-- C2: whenever the gradient block is present and splits into a
whitespace-separated sequence of `3 * n` floats, `parse_gradient` stores
an `n`-row, 3-column matrix preserving document order, and flattening the
stored matrix reproduces the original flat float sequence. -/
theorem gradient_shape_roundtrip (string : List Char) (dc : ParsedDataCollector)
    (vs : List Rat) (n : Nat)
    (hv : gradientFlatValues string = some vs) (hlen : vs.length = 3 * n) :
    ∃ g, parse_gradient string dc = .ok { dc with gradient := some g } ∧
      g.length = n ∧ (∀ row ∈ g, row.length = 3) ∧ g.flatten = vs := by
  simp only [gradientFlatValues] at hv
  cases hb : gradSearch string with
  | none => rw [hb] at hv; simp at hv
  | some body =>
    rw [hb] at hv
    simp only [Option.some_bind] at hv
    refine ⟨chunk3 vs, ?_, (chunk3_shape n vs hlen).1, (chunk3_shape n vs hlen).2,
            chunk3_flatten vs⟩
    simp [parse_gradient, hb, hv]

/-- C2 witness: a one-atom gradient block round-trips. -/
theorem gradient_shape_roundtrip_witness :
    ∃ g, parse_gradient
        ("dE/dX            dE/dY            dE/dZ\n0.1 0.2 0.3\n---\n".toList) {} =
      .ok { gradient := some g } ∧
      g.length = 1 ∧ (∀ row ∈ g, row.length = 3) ∧
      g.flatten = [mkRat 1 10, mkRat 2 10, mkRat 3 10] :=
  gradient_shape_roundtrip
    ("dE/dX            dE/dY            dE/dZ\n0.1 0.2 0.3\n---\n".toList) {}
    [mkRat 1 10, mkRat 2 10, mkRat 3 10] 1 (by decide) (by decide)

/-- C1: `parse_hessian` either stores a square matrix — the number of
rows equals the length of every row — or raises an error and stores
nothing; and when no row block with index 1 exists in the text it raises
the match-not-found error. -/
theorem hessian_square_or_error (string : List Char) (dc dc' : ParsedDataCollector) :
    (parse_hessian string dc = .ok dc' →
      ∃ H, dc'.hessian = some H ∧ H ≠ [] ∧ ∀ row ∈ H, row.length = H.length) ∧
    (hessRows 1 string = [] → parse_hessian string dc = .error (.matchNotFound, dc)) := by
  constructor
  · intro h
    cases hl : hessLoop string (string.length + 1) 1 [] with
    | none => simp [parse_hessian, hl] at h
    | some hs =>
      by_cases he : hs.isEmpty = true
      · simp [parse_hessian, hl, he] at h
      · by_cases hall : (hs.all fun row => row.length == hs.length) = true
        · simp [parse_hessian, hl, he, hall] at h
          subst h
          refine ⟨hs, rfl, ?_, ?_⟩
          · intro hnil; rw [hnil] at he; exact he rfl
          · intro row hrow
            exact eq_of_beq (List.all_eq_true.1 hall row hrow)
        · simp [parse_hessian, hl, he, hall] at h
  · intro h0
    simp [parse_hessian, hessLoop, h0]

/-- C1 witness: a one-row Hessian text yields a square 1×1 matrix; a text
with no index-1 row raises the match-not-found error. -/
theorem hessian_square_or_error_witness :
    (∃ H, ({ hessian := some [[mkRat (-1234567890123456) 1000000000000000]] } :
        ParsedDataCollector).hessian = some H ∧
      H ≠ [] ∧ ∀ row ∈ H, row.length = H.length) ∧
    parse_hessian [] {} = .error (.matchNotFound, {}) :=
  ⟨(hessian_square_or_error (" 1  -1.234567890123456e+00".toList) {}
      { hessian := some [[mkRat (-1234567890123456) 1000000000000000]] }).1 (by decide),
   (hessian_square_or_error [] {} {}).2 (by decide)⟩

/-- C9: the four extractors are atomic on failure: whenever any of them
raises, the error carries the collector exactly as it was passed in,
because each writes its fields only after all matching and validation
steps have succeeded. -/
theorem extractors_atomic (string : List Char) (dc dc' : ParsedDataCollector) (e : ParseErr) :
    (parse_energy string dc = .error (e, dc') → dc' = dc) ∧
    (parse_cis_energies string dc = .error (e, dc') → dc' = dc) ∧
    (parse_hessian string dc = .error (e, dc') → dc' = dc) ∧
    (parse_meci_energies string dc = .error (e, dc') → dc' = dc) := by
  refine ⟨?_, ?_, ?_, ?_⟩
  · intro h
    unfold parse_energy at h
    cases hs : searchEnergyCap string with
    | none => rw [hs] at h; simp at h; exact h.2.symm
    | some cap => rw [hs] at h; exact absurd h (by simp)
  · intro h
    unfold parse_cis_energies at h
    by_cases hm : (cisMatches string).isEmpty = true
    · rw [if_pos hm] at h; simp at h; exact h.2.symm
    · rw [if_neg hm] at h; exact absurd h (by simp)
  · intro h
    cases hl : hessLoop string (string.length + 1) 1 [] with
    | none => simp [parse_hessian, hl] at h; exact h.2.symm
    | some hs =>
      by_cases he : hs.isEmpty = true
      · simp [parse_hessian, hl, he] at h; exact h.2.symm
      · by_cases hall : (hs.all fun row => row.length == hs.length) = true
        · simp [parse_hessian, hl, he, hall] at h
        · simp [parse_hessian, hl, he, hall] at h; exact h.2.symm
  · intro h
    unfold parse_meci_energies at h
    by_cases hm : ((lowerMatches string).isEmpty || (upperMatches string).isEmpty) = true
    · rw [if_pos hm] at h; simp at h; exact h.2.symm
    · rw [if_neg hm] at h; exact absurd h (by simp)

/-- C9 witness: on a text none of the four extractors can parse, each
raises with the fresh collector unchanged. -/
theorem extractors_atomic_witness :
    (({} : ParsedDataCollector) = {} ∧ ({} : ParsedDataCollector) = {}) ∧
    (({} : ParsedDataCollector) = {} ∧ ({} : ParsedDataCollector) = {}) :=
  ⟨⟨(extractors_atomic ("x".toList) {} {} .matchNotFound).1 (by decide),
    (extractors_atomic ("x".toList) {} {} .matchNotFound).2.1 (by decide)⟩,
   ⟨(extractors_atomic ("x".toList) {} {} .matchNotFound).2.2.1 (by decide),
    (extractors_atomic ("x".toList) {} {} .matchNotFound).2.2.2 (by decide)⟩⟩

end Qcparse
